import Mathlib

/-!
# GCRA rate limiter: a shallow embedding of `src/lib/rate_limiter.rs`

The source is a Generic Cell Rate Algorithm (GCRA) rate limiter.  Its data
model (`RateLimiter` in `rate_limiter.rs`) stores two `u64` constants derived
at construction — `rate_nanos` (the increment, nanoseconds between conforming
requests) and `tolerance_nanos` (the burst tolerance) — plus a concurrent map
(`DashMap`) from client key to that key's Theoretical Arrival Time (TAT) in
nanoseconds, and a pluggable `Clock` whose single operation `now()` returns a
`u64` nanosecond timestamp.

Modelling choices:
* `u64` nanosecond timestamps are modelled as `Nat`.  The one subtraction in
  the source is `saturating_sub`, which is exactly `Nat` truncated
  subtraction.  The addition `max(current, previous_tat) + rate_nanos`
  panics on `u64` overflow in the source (debug profile); the embedding uses
  unbounded `Nat` addition, i.e. it covers the non-overflowing range in
  which the limiter is meaningful (u64 nanoseconds span ~584 years).
* The constructor's `f64` arithmetic is modelled over `ℚ`, with the
  `as u64` cast of a nonnegative value modelled as `⌊·⌋.toNat` (the cast
  truncates toward zero, which is the floor for the nonnegative values that
  reach it, and clamps negatives to 0 — `Int.toNat` does the same).  Every
  concrete input used in a theorem below is one where the `f64` computation
  is exact enough that its truncation agrees with the exact rational floor.
* The `Clock` trait is modelled by passing the current `now()` value to each
  call explicitly (the semantics of the deterministic `TestClock`); the
  `DashMap` is modelled as a function `K → Option Nat`.  `DashMap.get` and
  `DashMap.insert` are each individually atomic but the source holds no lock
  between them; the phase functions `readTat` / `writeTat` below expose that
  split so that interleavings of concurrent calls can be analysed.
-/

/-- `u64` nanosecond timestamps of the source, modelled as `Nat`. -/
abbrev Nanos := Nat

/-- The error enum `RateLimiterError` of `rate_limiter.rs`:
`InvalidRate` for `rate <= 0`, `InvalidBurst` for `burst < 0`. -/
inductive RateLimiterError where
  | invalidRate
  | invalidBurst
  deriving DecidableEq, Repr

/-- The `RateLimiter` struct of `rate_limiter.rs`.  `rate_nanos` and
`tolerance_nanos` are the derived `u64` constants; `client_state` models the
`DashMap<T, u64>` from client key to stored TAT.  The clock field is modelled
by passing `now()` explicitly to each call. -/
structure RateLimiter (K : Type) where
  rate_nanos : Nanos
  tolerance_nanos : Nanos
  client_state : K → Option Nanos

/-- The conversion `let rate_nanos = (1_000_000_000.0 / rate_per_second) as u64`
of `RateLimiter::new`, over exact rationals: the `as u64` cast of the
nonnegative quotient truncates, i.e. takes `⌊10^9 / rate⌋`, computed here on
the reduced fraction `rate = num / den` as `(10^9 * den) / num` in `ℕ`
(for `rate ≤ 0`, which only occurs on the already-rejected error path,
`Int.toNat` and `Nat` division by zero both yield `0`, matching the
saturating `as u64` cast of a non-positive value). -/
def rateNanosOf (rate_per_second : ℚ) : Nanos :=
  (1000000000 * rate_per_second.den) / rate_per_second.num.toNat

/-- The conversion `let tolerance_nanos = (burst_capacity * rate_nanos as f64) as u64`
of `RateLimiter::new`, over exact rationals: `⌊burst * rate_nanos⌋` computed
on the reduced fraction `burst = num / den` as `(num * rate_nanos) / den` in
`ℕ` (negative `burst` only occurs on the already-rejected error path and
clamps to `0`, matching the saturating `as u64` cast). -/
def toleranceNanosOf (burst_capacity : ℚ) (rate_nanos : Nanos) : Nanos :=
  (burst_capacity.num.toNat * rate_nanos) / burst_capacity.den

/-- `RateLimiter::new(rate_per_second, burst_capacity, clock)`: rejects
`rate_per_second <= 0.0` with `InvalidRate`, then `burst_capacity < 0.0` with
`InvalidBurst`, otherwise derives the nanosecond constants and starts with an
empty `DashMap`. -/
def RateLimiter.new (K : Type) (rate_per_second burst_capacity : ℚ) :
    Except RateLimiterError (RateLimiter K) :=
  if rate_per_second ≤ 0 then
    .error .invalidRate
  else if burst_capacity < 0 then
    .error .invalidBurst
  else
    .ok { rate_nanos := rateNanosOf rate_per_second
          tolerance_nanos := toleranceNanosOf burst_capacity (rateNanosOf rate_per_second)
          client_state := fun _ => none }

/-- The accessor `RateLimiter::rate`: `1_000_000_000.0 / self.rate_nanos as f64`,
over exact rationals. -/
def RateLimiter.rate {K : Type} (rl : RateLimiter K) : ℚ :=
  (1000000000 : ℚ) / (rl.rate_nanos : ℚ)

/-- The accessor `RateLimiter::burst`: `self.tolerance_nanos as f64 / self.rate_nanos as f64`,
over exact rationals. -/
def RateLimiter.burst {K : Type} (rl : RateLimiter K) : ℚ :=
  (rl.tolerance_nanos : ℚ) / (rl.rate_nanos : ℚ)

/-- The first phase of `is_allowed`: the single `DashMap::get`, defaulting to
the current time for an absent key
(`self.client_state.get(&client_id).map(|e| *e.value()).unwrap_or(current_time_nanos)`). -/
def RateLimiter.readTat {K : Type} (rl : RateLimiter K) (current_time_nanos : Nanos)
    (client_id : K) : Nanos :=
  (rl.client_state client_id).getD current_time_nanos

/-- The core GCRA conformance test of `is_allowed`:
`current_time_nanos >= previous_tat_nanos.saturating_sub(self.tolerance_nanos)`.
`Nat` subtraction is exactly `u64::saturating_sub`. -/
def RateLimiter.conforming {K : Type} (rl : RateLimiter K)
    (current_time_nanos previous_tat_nanos : Nanos) : Bool :=
  decide (previous_tat_nanos - rl.tolerance_nanos ≤ current_time_nanos)

/-- The write phase of `is_allowed`, executed only on a conforming request:
the single `DashMap::insert` of
`new_tat_nanos = current_time_nanos.max(previous_tat_nanos) + self.rate_nanos`. -/
def RateLimiter.writeTat {K : Type} [DecidableEq K] (rl : RateLimiter K)
    (current_time_nanos previous_tat_nanos : Nanos) (client_id : K) : RateLimiter K :=
  { rl with client_state := fun k =>
      if k = client_id then some (max current_time_nanos previous_tat_nanos + rl.rate_nanos)
      else rl.client_state k }

/-- `RateLimiter::is_allowed(client_id)`: reads the previous TAT, runs the
conformance test, conditionally inserts the new TAT, and returns
`Ok(is_conforming)`.  The current time (the source's `self.clock.now()`) is
passed explicitly; the updated limiter is returned as the second component
(the side effect on the `DashMap`). -/
def RateLimiter.isAllowed {K : Type} [DecidableEq K] (rl : RateLimiter K)
    (current_time_nanos : Nanos) (client_id : K) :
    Except RateLimiterError Bool × RateLimiter K :=
  let previous_tat_nanos := rl.readTat current_time_nanos client_id
  let is_conforming := rl.conforming current_time_nanos previous_tat_nanos
  let rl' := if is_conforming then rl.writeTat current_time_nanos previous_tat_nanos client_id
             else rl
  (.ok is_conforming, rl')

/-- The boolean decision of a call (the payload of the always-`Ok` result). -/
def RateLimiter.allowed {K : Type} [DecidableEq K] (rl : RateLimiter K)
    (current_time_nanos : Nanos) (client_id : K) : Bool :=
  ((rl.isAllowed current_time_nanos client_id).1).toOption.getD false

/-- The limiter state after one call (the `DashMap` side effect). -/
def RateLimiter.after {K : Type} [DecidableEq K] (rl : RateLimiter K)
    (current_time_nanos : Nanos) (client_id : K) : RateLimiter K :=
  (rl.isAllowed current_time_nanos client_id).2

/-- The limiter state after `n` repeated calls at the same instant `t` for the
same key (the burst-capacity scenario of the spec's tests). -/
def RateLimiter.callN {K : Type} [DecidableEq K] (rl : RateLimiter K)
    (t : Nanos) (client_id : K) : Nat → RateLimiter K
  | 0 => rl
  | n + 1 => (rl.callN t client_id n).after t client_id

/-- Running a sequence of calls `(time, key)`: the list of boolean decisions
and the final limiter state. -/
def RateLimiter.run {K : Type} [DecidableEq K] (rl : RateLimiter K) :
    List (Nanos × K) → List Bool × RateLimiter K
  | [] => ([], rl)
  | (t, k) :: rest =>
    let d := rl.allowed t k
    let (ds, rl') := (rl.after t k).run rest
    (d :: ds, rl')

/-- Two concurrent `is_allowed` calls for the same key, interleaved so that
both `DashMap::get`s complete before either `DashMap::insert`.  The source
holds no lock between its `get` and its `insert`, so this schedule is
admissible: each thread reads the same stored TAT, decides from its own stale
copy, and the writes are then applied in order.  Returns the two decisions
and the final state. -/
def RateLimiter.racyPair {K : Type} [DecidableEq K] (rl : RateLimiter K)
    (t : Nanos) (client_id : K) : Bool × Bool × RateLimiter K :=
  let prev1 := rl.readTat t client_id
  let prev2 := rl.readTat t client_id
  let c1 := rl.conforming t prev1
  let rl1 := if c1 then rl.writeTat t prev1 client_id else rl
  let c2 := rl1.conforming t prev2
  let rl2 := if c2 then rl1.writeTat t prev2 client_id else rl1
  (c1, c2, rl2)

/-! ## Basic lemmas about one call -/

theorem RateLimiter.isAllowed_fst {K : Type} [DecidableEq K] (rl : RateLimiter K)
    (t : Nanos) (k : K) :
    (rl.isAllowed t k).1 = .ok (rl.conforming t (rl.readTat t k)) := rfl

theorem RateLimiter.allowed_eq {K : Type} [DecidableEq K] (rl : RateLimiter K)
    (t : Nanos) (k : K) :
    rl.allowed t k = rl.conforming t (rl.readTat t k) := rfl

theorem RateLimiter.allowed_iff {K : Type} [DecidableEq K] (rl : RateLimiter K)
    (t : Nanos) (k : K) :
    rl.allowed t k = true ↔ rl.readTat t k - rl.tolerance_nanos ≤ t := by
  simp [RateLimiter.allowed_eq, RateLimiter.conforming]

theorem RateLimiter.after_eq {K : Type} [DecidableEq K] (rl : RateLimiter K)
    (t : Nanos) (k : K) :
    rl.after t k =
      if rl.conforming t (rl.readTat t k) then rl.writeTat t (rl.readTat t k) k
      else rl := rfl

theorem RateLimiter.after_rate_nanos {K : Type} [DecidableEq K] (rl : RateLimiter K)
    (t : Nanos) (k : K) : (rl.after t k).rate_nanos = rl.rate_nanos := by
  rw [RateLimiter.after_eq]
  split <;> rfl

theorem RateLimiter.after_tolerance_nanos {K : Type} [DecidableEq K] (rl : RateLimiter K)
    (t : Nanos) (k : K) : (rl.after t k).tolerance_nanos = rl.tolerance_nanos := by
  rw [RateLimiter.after_eq]
  split <;> rfl

theorem RateLimiter.after_client_state_ne {K : Type} [DecidableEq K] (rl : RateLimiter K)
    (t : Nanos) (k k' : K) (h : k' ≠ k) :
    (rl.after t k).client_state k' = rl.client_state k' := by
  rw [RateLimiter.after_eq]
  split
  · simp [RateLimiter.writeTat, h]
  · rfl

theorem RateLimiter.after_client_state_self {K : Type} [DecidableEq K] (rl : RateLimiter K)
    (t : Nanos) (k : K) :
    (rl.after t k).client_state k = rl.client_state k ∨
      (rl.after t k).client_state k = some (max t (rl.readTat t k) + rl.rate_nanos) := by
  rw [RateLimiter.after_eq]
  split
  · right; simp [RateLimiter.writeTat]
  · left; rfl

theorem RateLimiter.after_client_state_of_conforming {K : Type} [DecidableEq K]
    (rl : RateLimiter K) (t : Nanos) (k : K)
    (h : rl.conforming t (rl.readTat t k) = true) :
    (rl.after t k).client_state k = some (max t (rl.readTat t k) + rl.rate_nanos) := by
  rw [RateLimiter.after_eq, if_pos h]
  simp [RateLimiter.writeTat]

theorem RateLimiter.after_of_not_conforming {K : Type} [DecidableEq K]
    (rl : RateLimiter K) (t : Nanos) (k : K)
    (h : rl.conforming t (rl.readTat t k) = false) :
    rl.after t k = rl := by
  rw [RateLimiter.after_eq, h]
  rfl

/-- Unfolding `RateLimiter.new` on the success path. -/
theorem RateLimiter.new_ok {K : Type} (rate burst : ℚ) (rl : RateLimiter K)
    (h : RateLimiter.new K rate burst = .ok rl) :
    0 < rate ∧ 0 ≤ burst ∧
      rl.rate_nanos = rateNanosOf rate ∧
      rl.tolerance_nanos = toleranceNanosOf burst (rateNanosOf rate) ∧
      rl.client_state = fun _ => none := by
  unfold RateLimiter.new at h
  split at h
  · exact Except.noConfusion h
  · split at h
    · exact Except.noConfusion h
    · injection h with h'
      subst h'
      exact ⟨not_le.mp (by assumption), not_lt.mp (by assumption), rfl, rfl, rfl⟩

/-! ## Concrete limiters used by witnesses -/

/-- A fresh limiter at rate 1 req/s, burst 0 (the state `new(1.0, 0.0, clock)`
produces): increment `10^9` ns, tolerance `0`, empty state store. -/
def limiterFresh : RateLimiter ℕ :=
  { rate_nanos := 1000000000, tolerance_nanos := 0, client_state := fun _ => none }

/-- A rate-1/burst-0 limiter whose key `0` has stored TAT `2·10^9` ns
(two seconds in the future), so a call for key `0` at time `0` is denied. -/
def limiterBusy : RateLimiter ℕ :=
  { rate_nanos := 1000000000, tolerance_nanos := 0,
    client_state := fun k => if k = 0 then some 2000000000 else none }

/-- A limiter with tolerance `5` whose key `0` has stored TAT `3 ≤ 5`, so the
conformance subtraction saturates at `0`. -/
def limiterTol : RateLimiter ℕ :=
  { rate_nanos := 10, tolerance_nanos := 5,
    client_state := fun k => if k = 0 then some 3 else none }

/-! ## C3: first request for an unseen key is always admitted -/

/-- C3: for every limiter, every key with no entry in the state store, and
every current clock value, `is_allowed` returns `Ok(true)`: an absent entry
defaults the previous TAT to the current time, and the conformance test
`current >= current.saturating_sub(tolerance)` always holds. -/
theorem c3_first_use_admitted {K : Type} [DecidableEq K] (rl : RateLimiter K)
    (k : K) (t : Nanos) (h : rl.client_state k = none) :
    (rl.isAllowed t k).1 = .ok true := by
  rw [RateLimiter.isAllowed_fst]
  simp [RateLimiter.readTat, h, RateLimiter.conforming, Nat.sub_le]

/-- Witness for C3 at limiter `new(1.0, 0.0)`, key `5`, time `42`. -/
theorem c3_first_use_admitted_witness :
    limiterFresh.client_state 5 = none ∧ (limiterFresh.isAllowed 42 5).1 = .ok true :=
  ⟨rfl, c3_first_use_admitted limiterFresh 5 42 rfl⟩

/-! ## C5: a denied call never mutates the state store -/

/-- C5: whenever `is_allowed` returns `Ok(false)` the limiter state (the
per-key store in particular) is completely unchanged: the `insert` is only
executed on the conforming branch. -/
theorem c5_denied_leaves_state_unchanged {K : Type} [DecidableEq K]
    (rl : RateLimiter K) (t : Nanos) (k : K)
    (h : (rl.isAllowed t k).1 = .ok false) :
    (rl.isAllowed t k).2 = rl := by
  have hc : rl.conforming t (rl.readTat t k) = false := by
    have h' := rl.isAllowed_fst t k
    rw [h] at h'
    injection h'.symm
  exact RateLimiter.after_of_not_conforming rl t k hc

/-- Witness for C5: key `0` of `limiterBusy` is denied at time `0` and the
state is untouched. -/
theorem c5_denied_leaves_state_unchanged_witness :
    (limiterBusy.isAllowed 0 0).1 = .ok false ∧ (limiterBusy.isAllowed 0 0).2 = limiterBusy :=
  ⟨rfl, c5_denied_leaves_state_unchanged limiterBusy 0 0 rfl⟩

/-! ## C7: constructor validation; the decision call is infallible -/

/-- C7: `new` fails with `InvalidRate` exactly when `rate ≤ 0`, with
`InvalidBurst` exactly when `rate > 0` and `burst < 0`, and succeeds exactly
when `rate > 0` and `burst ≥ 0` (including `burst = 0`); and `is_allowed`
returns `Ok` for every limiter state, key and clock value. -/
theorem c7_validation_and_infallible_decision (K : Type) [DecidableEq K] :
    (∀ rate burst : ℚ,
      ((RateLimiter.new K rate burst = .error .invalidRate) ↔ rate ≤ 0) ∧
      ((RateLimiter.new K rate burst = .error .invalidBurst) ↔ 0 < rate ∧ burst < 0) ∧
      ((∃ rl, RateLimiter.new K rate burst = .ok rl) ↔ 0 < rate ∧ 0 ≤ burst)) ∧
    (∀ (rl : RateLimiter K) (t : Nanos) (k : K), ∃ b, (rl.isAllowed t k).1 = .ok b) := by
  constructor
  · intro rate burst
    unfold RateLimiter.new
    split_ifs with h1 h2 <;> refine ⟨?_, ?_, ?_⟩ <;> simp_all
  · exact fun rl t k => ⟨_, rfl⟩

/-- Witness for C7 at `rate = -1, burst = 1` and at `limiterFresh`. -/
theorem c7_validation_and_infallible_decision_witness :
    (((RateLimiter.new ℕ (-1) 1 = .error .invalidRate) ↔ (-1 : ℚ) ≤ 0) ∧
      ((RateLimiter.new ℕ (-1) 1 = .error .invalidBurst) ↔ 0 < (-1 : ℚ) ∧ (1 : ℚ) < 0) ∧
      ((∃ rl, RateLimiter.new ℕ (-1) 1 = .ok rl) ↔ 0 < (-1 : ℚ) ∧ (0 : ℚ) ≤ 1)) ∧
    (∃ b, (limiterFresh.isAllowed 0 0).1 = .ok b) :=
  ⟨(c7_validation_and_infallible_decision ℕ).1 (-1) 1,
    (c7_validation_and_infallible_decision ℕ).2 limiterFresh 0 0⟩

/-! ## C9: tolerance subtraction saturates at zero -/

/-- C9: the conformance test subtracts `tolerance_nanos` from the stored TAT
with `u64::saturating_sub` (`Nat` subtraction): whenever the stored TAT is at
most the tolerance the comparison is made against `0`, so any current time is
conforming — early history is never misread as far in the future. -/
theorem c9_saturating_underflow {K : Type} [DecidableEq K] (rl : RateLimiter K)
    (t : Nanos) (k : K) (prev : Nanos)
    (hstate : rl.client_state k = some prev)
    (hle : prev ≤ rl.tolerance_nanos) :
    prev - rl.tolerance_nanos = 0 ∧ (rl.isAllowed t k).1 = .ok true := by
  refine ⟨Nat.sub_eq_zero_of_le hle, ?_⟩
  rw [RateLimiter.isAllowed_fst]
  simp [RateLimiter.readTat, hstate, RateLimiter.conforming, Nat.sub_eq_zero_of_le hle]

/-- Witness for C9: `limiterTol` stores TAT `3 ≤ tolerance 5` for key `0`;
the subtraction saturates to `0` and the call at time `0` is admitted. -/
theorem c9_saturating_underflow_witness :
    limiterTol.client_state 0 = some 3 ∧ 3 ≤ limiterTol.tolerance_nanos ∧
      (3 - limiterTol.tolerance_nanos = 0 ∧ (limiterTol.isAllowed 0 0).1 = .ok true) :=
  ⟨rfl, by decide, c9_saturating_underflow limiterTol 0 0 3 rfl (by decide)⟩

/-! ## Repeated calls at one instant: state evolution -/

theorem RateLimiter.callN_rate_const {K : Type} [DecidableEq K] (L : RateLimiter K)
    (t : Nanos) (k : K) : ∀ j, (L.callN t k j).rate_nanos = L.rate_nanos
  | 0 => rfl
  | j + 1 => by
    rw [RateLimiter.callN, RateLimiter.after_rate_nanos, L.callN_rate_const t k j]

theorem RateLimiter.callN_tolerance_const {K : Type} [DecidableEq K] (L : RateLimiter K)
    (t : Nanos) (k : K) : ∀ j, (L.callN t k j).tolerance_nanos = L.tolerance_nanos
  | 0 => rfl
  | j + 1 => by
    rw [RateLimiter.callN, RateLimiter.after_tolerance_nanos, L.callN_tolerance_const t k j]

/-- With a fresh key and tolerance `B · increment`, the first `B + 1` calls at
instant `t` each advance the stored TAT by one increment: after `j ≤ B + 1`
calls (`j ≥ 1`) the stored TAT is `t + j · increment`. -/
theorem RateLimiter.callN_client_state {K : Type} [DecidableEq K] (L : RateLimiter K)
    (t : Nanos) (k : K) (B : ℕ)
    (hfresh : L.client_state k = none)
    (htol : L.tolerance_nanos = B * L.rate_nanos) :
    ∀ j, j ≤ B + 1 →
      (L.callN t k j).client_state k =
        if j = 0 then none else some (t + j * L.rate_nanos) := by
  intro j
  induction j with
  | zero => intro _; simpa [RateLimiter.callN] using hfresh
  | succ j ih =>
    intro hj
    have hjB : j ≤ B := by omega
    have hstate := ih (by omega)
    have hread : (L.callN t k j).readTat t k = t + j * L.rate_nanos := by
      rw [RateLimiter.readTat, hstate]
      by_cases h0 : j = 0
      · subst h0; simp
      · simp [h0]
    have hmul : j * L.rate_nanos ≤ B * L.rate_nanos :=
      Nat.mul_le_mul_right _ hjB
    have hconf : (L.callN t k j).conforming t ((L.callN t k j).readTat t k) = true := by
      rw [hread, RateLimiter.conforming, L.callN_tolerance_const t k j, htol,
        decide_eq_true_eq]
      exact Nat.sub_le_iff_le_add.mpr (Nat.add_le_add_left hmul t)
    rw [RateLimiter.callN, RateLimiter.after_client_state_of_conforming _ _ _ hconf,
      hread, L.callN_rate_const t k j]
    have hmax : max t (t + j * L.rate_nanos) = t + j * L.rate_nanos :=
      Nat.max_eq_right (Nat.le_add_right _ _)
    rw [hmax]
    have : t + j * L.rate_nanos + L.rate_nanos = t + (j + 1) * L.rate_nanos := by
      rw [Nat.succ_mul]
      exact Nat.add_assoc t (j * L.rate_nanos) L.rate_nanos
    rw [this]
    simp

/-! ## C1: burst capacity admits exactly B + 1 same-instant calls -/

/-- Counterexample to C1 as stated: the claim quantifies over **every** rate
`R > 0`, but for `R = 2·10^9` requests/second the derived increment
`(10^9 / R) as u64` rounds to `0` (the `f64` quotient is exactly `0.5`), the
TAT never advances, and with `burst = 0` the second call at the same instant
is also admitted — the code returns `true` where the claim requires the
`(B+2)`-nd same-instant call to return `false`. -/
theorem c1_counterexample :
    (RateLimiter.new ℕ 2000000000 0).map (fun rl => (rl.after 0 7).allowed 0 7) =
      .ok true ∧ (0 : ℚ) < 2000000000 := by
  exact ⟨rfl, by norm_num⟩

/-- C1, amended: for every rate `R > 0` whose derived increment
`⌊10^9 / R⌋` is at least one nanosecond (in particular any `R ≤ 10^9`), every
non-negative integer burst `B` and every key, the first `B + 1` same-instant
calls on a fresh limiter built by `new(R, B, clock)` all return `Ok(true)`
and the `(B+2)`-nd call at that instant returns `Ok(false)`. -/
theorem c1_burst_capacity {K : Type} [DecidableEq K] (R : ℚ) (B : ℕ)
    (rl : RateLimiter K)
    (hnew : RateLimiter.new K R (B : ℚ) = .ok rl)
    (hinc : 1 ≤ rateNanosOf R) (k : K) (t : Nanos) :
    (∀ j, j ≤ B → (rl.callN t k j).allowed t k = true) ∧
      (rl.callN t k (B + 1)).allowed t k = false := by
  obtain ⟨-, -, hrate, htol', hcs⟩ := RateLimiter.new_ok R (B : ℚ) rl hnew
  have hfresh : rl.client_state k = none := by rw [hcs]
  have htolB : toleranceNanosOf (B : ℚ) (rateNanosOf R) = B * rateNanosOf R := by
    unfold toleranceNanosOf
    rw [Rat.num_natCast, Rat.den_natCast, Int.toNat_natCast, Nat.div_one]
  have htol : rl.tolerance_nanos = B * rl.rate_nanos := by
    rw [htol', htolB, hrate]
  have hstate := rl.callN_client_state t k B hfresh htol
  constructor
  · intro j hj
    have hs := hstate j (by omega)
    have hread : (rl.callN t k j).readTat t k = t + j * rl.rate_nanos := by
      rw [RateLimiter.readTat, hs]
      by_cases h0 : j = 0
      · subst h0; simp
      · simp [h0]
    rw [RateLimiter.allowed_eq, RateLimiter.conforming, hread,
      rl.callN_tolerance_const t k j, htol, decide_eq_true_eq]
    have hmul : j * rl.rate_nanos ≤ B * rl.rate_nanos :=
      Nat.mul_le_mul_right _ hj
    exact Nat.sub_le_iff_le_add.mpr (Nat.add_le_add_left hmul t)
  · have hs := hstate (B + 1) (by omega)
    have hread : (rl.callN t k (B + 1)).readTat t k = t + (B + 1) * rl.rate_nanos := by
      rw [RateLimiter.readTat, hs]
      simp
    rw [RateLimiter.allowed_eq, RateLimiter.conforming, hread,
      rl.callN_tolerance_const t k (B + 1), htol, decide_eq_false_iff_not]
    have hinc' : 1 ≤ rl.rate_nanos := hrate ▸ hinc
    intro hcontra
    rw [Nat.succ_mul] at hcontra
    have h2 : t + (B * rl.rate_nanos + rl.rate_nanos) ≤ t + B * rl.rate_nanos :=
      Nat.sub_le_iff_le_add.mp hcontra
    have h3 : B * rl.rate_nanos + rl.rate_nanos ≤ B * rl.rate_nanos :=
      Nat.le_of_add_le_add_left h2
    have h5 : B * rl.rate_nanos + 1 ≤ B * rl.rate_nanos :=
      le_trans (Nat.add_le_add_left hinc' _) h3
    exact absurd h5 (Nat.not_succ_le_self _)

/-- The limiter `new(1.0, 3.0, clock)` produces: increment `10^9` ns,
tolerance `3·10^9` ns, empty state store. -/
def limiterBurst3 : RateLimiter ℕ :=
  { rate_nanos := 1000000000, tolerance_nanos := 3000000000, client_state := fun _ => none }

/-- Witness for C1 at `R = 1`, `B = 3`, key `0`, instant `0`: four calls
admitted, the fifth denied (the spec's concrete scenario 2). -/
theorem c1_burst_capacity_witness :
    (limiterBurst3.callN 0 0 0).allowed 0 0 = true ∧
      (limiterBurst3.callN 0 0 1).allowed 0 0 = true ∧
      (limiterBurst3.callN 0 0 2).allowed 0 0 = true ∧
      (limiterBurst3.callN 0 0 3).allowed 0 0 = true ∧
      (limiterBurst3.callN 0 0 4).allowed 0 0 = false :=
  ⟨(c1_burst_capacity 1 3 limiterBurst3 rfl (by decide) 0 0).1 0 (by decide),
    (c1_burst_capacity 1 3 limiterBurst3 rfl (by decide) 0 0).1 1 (by decide),
    (c1_burst_capacity 1 3 limiterBurst3 rfl (by decide) 0 0).1 2 (by decide),
    (c1_burst_capacity 1 3 limiterBurst3 rfl (by decide) 0 0).1 3 (by decide),
    (c1_burst_capacity 1 3 limiterBurst3 rfl (by decide) 0 0).2⟩

/-! ## C2: steady-state spacing at burst 0 -/

theorem toleranceNanosOf_zero (n : Nanos) : toleranceNanosOf 0 n = 0 := by
  simp [toleranceNanosOf]

/-- Counterexample to C2 as stated: the claim demands denial at **every** time
strictly between `t` and `t + 1/R`.  The clock is integer nanoseconds, so
`1/R` seconds is `10^9/R` clock units.  For `R = 3` the derived increment is
`⌊10^9/3⌋ = 333333333` ns: after an admitted call at `t = 0`, the call at
time `333333333` — which lies strictly inside `(0, 10^9/3)` since
`333333333 < 10^9/3` — is admitted (`true`), where the claim requires
`false`. -/
theorem c2_counterexample :
    (RateLimiter.new ℕ 3 0).map (fun rl => (rl.after 0 0).allowed 333333333 0) =
        .ok true ∧
      (0 : ℚ) < 3 ∧ (0 : ℚ) < 333333333 ∧ (333333333 : ℚ) < 0 + 1000000000 / 3 :=
  ⟨rfl, by norm_num, by norm_num, by norm_num⟩

/-- C2, amended: with `burst = 0` the deny window after an admitted request at
time `t` (stored TAT at most `t`) is bounded by the **derived** increment
`⌊10^9/R⌋` nanoseconds rather than the exact `1/R` seconds: the admitting
call returns `true`, every call strictly inside `(t, t + ⌊10^9/R⌋)` returns
`false`, and the call at exactly `t + ⌊10^9/R⌋` returns `true` (boundary
conforming).  When `1/R` is a whole number of nanoseconds the two phrasings
coincide. -/
theorem c2_steady_state_spacing {K : Type} [DecidableEq K] (R : ℚ)
    (rl : RateLimiter K) (hnew : RateLimiter.new K R 0 = .ok rl)
    (k : K) (t : Nanos) (hprev : (rl.client_state k).getD t ≤ t) :
    rl.allowed t k = true ∧
      (∀ t', t < t' → t' < t + rateNanosOf R → (rl.after t k).allowed t' k = false) ∧
      (rl.after t k).allowed (t + rateNanosOf R) k = true := by
  obtain ⟨-, -, hrate, htol', -⟩ := RateLimiter.new_ok R 0 rl hnew
  have htol : rl.tolerance_nanos = 0 := by rw [htol', toleranceNanosOf_zero]
  have hread : rl.readTat t k = (rl.client_state k).getD t := rfl
  have hconf : rl.conforming t (rl.readTat t k) = true := by
    rw [RateLimiter.conforming, decide_eq_true_eq, hread, htol]
    exact le_trans (Nat.sub_le _ _) hprev
  have hallow : rl.allowed t k = true := by
    rw [RateLimiter.allowed_eq, hconf]
  have hmax : max t (rl.readTat t k) = t := Nat.max_eq_left (hread ▸ hprev)
  have hstate : (rl.after t k).client_state k = some (t + rl.rate_nanos) := by
    rw [RateLimiter.after_client_state_of_conforming rl t k hconf, hmax]
  have hread' : ∀ t', (rl.after t k).readTat t' k = t + rl.rate_nanos := by
    intro t'
    rw [RateLimiter.readTat, hstate]
    rfl
  have htol'' : (rl.after t k).tolerance_nanos = 0 := by
    rw [RateLimiter.after_tolerance_nanos, htol]
  refine ⟨hallow, ?_, ?_⟩
  · intro t' _ ht'
    rw [RateLimiter.allowed_eq, RateLimiter.conforming, hread' t', htol'',
      decide_eq_false_iff_not, Nat.sub_zero]
    rw [← hrate] at ht'
    exact fun hc => Nat.lt_irrefl _ (Nat.lt_of_lt_of_le ht' hc)
  · rw [RateLimiter.allowed_eq, RateLimiter.conforming, hread', htol'',
      decide_eq_true_eq, Nat.sub_zero, hrate]

/-- Witness for C2 at `R = 1` (increment exactly `10^9` ns), key `0`,
admitted call at `t = 0`: denied at `t = 5·10^8`, admitted at `t = 10^9`
(the spec's concrete scenario 1). -/
theorem c2_steady_state_spacing_witness :
    limiterFresh.allowed 0 0 = true ∧
      (limiterFresh.after 0 0).allowed 500000000 0 = false ∧
      (limiterFresh.after 0 0).allowed 1000000000 0 = true :=
  ⟨(c2_steady_state_spacing 1 limiterFresh rfl 0 0 (by decide)).1,
    (c2_steady_state_spacing 1 limiterFresh rfl 0 0 (by decide)).2.1 500000000
      (by decide) (by decide),
    (c2_steady_state_spacing 1 limiterFresh rfl 0 0 (by decide)).2.2⟩

/-! ## C6: writes only advance the called key's TAT; no entry is removed -/

/-- One call never decreases any stored TAT, and never removes an entry. -/
theorem RateLimiter.after_tat_le {K : Type} [DecidableEq K] (rl : RateLimiter K)
    (t : Nanos) (k k' : K) (v : Nanos) (h : rl.client_state k' = some v) :
    ∃ v', (rl.after t k).client_state k' = some v' ∧ v ≤ v' := by
  by_cases hk : k' = k
  · subst hk
    rcases rl.after_client_state_self t k' with hsame | hwrite
    · exact ⟨v, hsame.trans h, le_refl v⟩
    · refine ⟨max t (rl.readTat t k') + rl.rate_nanos, hwrite, ?_⟩
      have hv : rl.readTat t k' = v := by rw [RateLimiter.readTat, h]; rfl
      calc v = rl.readTat t k' := hv.symm
        _ ≤ max t (rl.readTat t k') := Nat.le_max_right _ _
        _ ≤ max t (rl.readTat t k') + rl.rate_nanos := Nat.le_add_right _ _
  · exact ⟨v, (rl.after_client_state_ne t k k' hk).trans h, le_refl v⟩

theorem RateLimiter.run_snd_cons {K : Type} [DecidableEq K] (rl : RateLimiter K)
    (t : Nanos) (k : K) (rest : List (Nanos × K)) :
    (rl.run ((t, k) :: rest)).2 = ((rl.after t k).run rest).2 := rfl

theorem RateLimiter.run_fst_cons {K : Type} [DecidableEq K] (rl : RateLimiter K)
    (t : Nanos) (k : K) (rest : List (Nanos × K)) :
    (rl.run ((t, k) :: rest)).1 = rl.allowed t k :: ((rl.after t k).run rest).1 := rfl

/-- Across any run, a stored TAT never disappears and never decreases. -/
theorem RateLimiter.run_tat_le {K : Type} [DecidableEq K] :
    ∀ (calls : List (Nanos × K)) (rl : RateLimiter K) (k : K) (v : Nanos),
      rl.client_state k = some v →
      ∃ v', ((rl.run calls).2).client_state k = some v' ∧ v ≤ v'
  | [], _, _, v, h => ⟨v, h, le_refl v⟩
  | (t, k') :: rest, rl, k, v, h => by
    rw [RateLimiter.run_snd_cons]
    obtain ⟨v₁, h₁, hle₁⟩ := rl.after_tat_le t k' k v h
    obtain ⟨v₂, h₂, hle₂⟩ := RateLimiter.run_tat_le rest (rl.after t k') k v₁ h₁
    exact ⟨v₂, h₂, le_trans hle₁ hle₂⟩

/-- C6: every mutation `is_allowed` makes to the state store writes, for the
called key only, the value `max(now, previous_tat) + increment` (all other
keys are untouched, and a denied call changes nothing); no call ever removes
an entry; hence across any sequence of calls with monotonically non-decreasing
clock values each key's stored TAT never decreases. -/
theorem c6_tat_never_decreases {K : Type} [DecidableEq K] :
    (∀ (rl : RateLimiter K) (t : Nanos) (k k' : K), k' ≠ k →
      (rl.after t k).client_state k' = rl.client_state k') ∧
    (∀ (rl : RateLimiter K) (t : Nanos) (k : K),
      (rl.after t k).client_state k = rl.client_state k ∨
        (rl.after t k).client_state k =
          some (max t (rl.readTat t k) + rl.rate_nanos)) ∧
    (∀ (rl : RateLimiter K) (calls : List (Nanos × K)),
      (calls.map Prod.fst).Chain' (· ≤ ·) →
      ∀ (k : K) (v : Nanos), rl.client_state k = some v →
        ∃ v', ((rl.run calls).2).client_state k = some v' ∧ v ≤ v') :=
  ⟨fun rl t k k' h => rl.after_client_state_ne t k k' h,
    fun rl t k => rl.after_client_state_self t k,
    fun rl calls _ k v h => RateLimiter.run_tat_le calls rl k v h⟩

/-- Witness for C6: a denied and an admitted call on concrete limiters; the
stored TAT `2·10^9` of `limiterBusy`'s key `0` survives a two-call run
undiminished. -/
theorem c6_tat_never_decreases_witness :
    (limiterBusy.after 0 0).client_state 1 = limiterBusy.client_state 1 ∧
      ((limiterFresh.after 0 0).client_state 0 = limiterFresh.client_state 0 ∨
        (limiterFresh.after 0 0).client_state 0 =
          some (max 0 (limiterFresh.readTat 0 0) + limiterFresh.rate_nanos)) ∧
      (∃ v', ((limiterBusy.run [(0, 0), (1, 1)]).2).client_state 0 = some v' ∧
        2000000000 ≤ v') :=
  ⟨c6_tat_never_decreases.1 limiterBusy 0 0 1 (by decide),
    c6_tat_never_decreases.2.1 limiterFresh 0 0,
    c6_tat_never_decreases.2.2 limiterBusy [(0, 0), (1, 1)]
      (by simp [List.chain'_cons]) 0 2000000000 rfl⟩

/-! ## C10: an increment that rounds to zero makes the limiter a no-op -/

/-- With a zero increment and zero tolerance, every call of a run whose clock
values are non-decreasing and bound every previously stored TAT is admitted:
the written TAT `max(now, prev) + 0` never exceeds "now", so no later call
(at a time ≥ now) can be non-conforming. -/
theorem RateLimiter.run_all_allowed_of_zero_inc {K : Type} [DecidableEq K] :
    ∀ (calls : List (Nanos × K)) (rl : RateLimiter K),
      rl.rate_nanos = 0 → rl.tolerance_nanos = 0 →
      (calls.map Prod.fst).Pairwise (· ≤ ·) →
      (∀ k v, rl.client_state k = some v → ∀ t ∈ calls.map Prod.fst, v ≤ t) →
      ∀ d ∈ (rl.run calls).1, d = true
  | [], _, _, _, _, _ => by intro d hd; simp [RateLimiter.run] at hd
  | (t, k) :: rest, rl, hrate, htol, hpair, hbound => by
    rw [List.map_cons, List.pairwise_cons] at hpair
    obtain ⟨hthead, hpair'⟩ := hpair
    have hprev_le : rl.readTat t k ≤ t := by
      rcases hcs : rl.client_state k with - | v
      · rw [RateLimiter.readTat, hcs]; exact le_refl t
      · rw [RateLimiter.readTat, hcs]
        exact hbound k v hcs t (by simp)
    have hconf : rl.conforming t (rl.readTat t k) = true := by
      rw [RateLimiter.conforming, htol, decide_eq_true_eq, Nat.sub_zero]
      exact hprev_le
    have hbound' : ∀ k' v', (rl.after t k).client_state k' = some v' →
        ∀ t' ∈ rest.map Prod.fst, v' ≤ t' := by
      intro k' v' hcs' t' ht'
      by_cases hk : k' = k
      · subst hk
        rcases rl.after_client_state_self t k' with hsame | hwrite
        · exact hbound k' v' (hsame ▸ hcs') t' (List.mem_cons_of_mem _ ht')
        · rw [hwrite, hrate, Nat.add_zero] at hcs'
          injection hcs' with hv'
          subst hv'
          exact le_trans (Nat.max_le.mpr ⟨hthead t' ht', le_trans hprev_le (hthead t' ht')⟩)
            (le_refl t')
      · rw [rl.after_client_state_ne t k k' hk] at hcs'
        exact hbound k' v' hcs' t' (List.mem_cons_of_mem _ ht')
    intro d hd
    rw [RateLimiter.run_fst_cons] at hd
    rcases List.mem_cons.mp hd with hd1 | hd2
    · rw [hd1, RateLimiter.allowed_eq, hconf]
    · exact RateLimiter.run_all_allowed_of_zero_inc rest (rl.after t k)
        ((rl.after_rate_nanos t k).trans hrate)
        ((rl.after_tolerance_nanos t k).trans htol)
        hpair' hbound' d hd2

/-- For any rate above `10^9` requests/second the derived increment
`(10^9 / R) as u64` truncates to `0`. -/
theorem rateNanosOf_eq_zero_of_large (R : ℚ) (hR : (1000000000 : ℚ) < R) :
    rateNanosOf R = 0 := by
  have hdpos : (0 : ℚ) < (R.den : ℚ) := by exact_mod_cast R.pos
  have h1 : (1000000000 : ℚ) * (R.den : ℚ) < R * (R.den : ℚ) :=
    mul_lt_mul_of_pos_right hR hdpos
  have h2 : R * (R.den : ℚ) = (R.num : ℚ) := by
    calc R * (R.den : ℚ) = (R.num : ℚ) / (R.den : ℚ) * (R.den : ℚ) := by
          rw [Rat.num_div_den]
      _ = (R.num : ℚ) := div_mul_cancel₀ _ (ne_of_gt hdpos)
  rw [h2] at h1
  have h3 : (1000000000 : ℤ) * R.den < R.num := by exact_mod_cast h1
  apply Nat.div_eq_of_lt
  omega

/-- C10: for every rate above `10^9` requests/second (so the derived
increment rounds to zero) and every burst accepted by the constructor, every
`is_allowed` call of any run with monotonically non-decreasing clock values
returns `true`: the tolerance is also zero, the written TAT equals the
current time, and the conformance test always succeeds — the limiter is a
no-op for that configuration. -/
theorem c10_zero_increment_noop {K : Type} [DecidableEq K] (R B : ℚ)
    (hR : (1000000000 : ℚ) < R) (rl : RateLimiter K)
    (hnew : RateLimiter.new K R B = .ok rl)
    (calls : List (Nanos × K))
    (hchain : (calls.map Prod.fst).Chain' (· ≤ ·)) :
    rateNanosOf R = 0 ∧ ∀ d ∈ (rl.run calls).1, d = true := by
  have hzero : rateNanosOf R = 0 := rateNanosOf_eq_zero_of_large R hR
  obtain ⟨-, -, hrate, htol', hcs⟩ := RateLimiter.new_ok R B rl hnew
  refine ⟨hzero, ?_⟩
  have hrate0 : rl.rate_nanos = 0 := by rw [hrate, hzero]
  have htol0 : rl.tolerance_nanos = 0 := by
    rw [htol', hzero]
    simp [toleranceNanosOf]
  have hpair : (calls.map Prod.fst).Pairwise (· ≤ ·) :=
    List.chain'_iff_pairwise.mp hchain
  have hbound : ∀ k v, rl.client_state k = some v →
      ∀ t ∈ calls.map Prod.fst, v ≤ t := by
    intro k v hv
    rw [hcs] at hv
    exact Option.noConfusion hv
  exact RateLimiter.run_all_allowed_of_zero_inc calls rl hrate0 htol0 hpair hbound

/-- The limiter `new(2·10^9, 0.0, clock)` produces: increment `0` ns (the
`f64` quotient is exactly `0.5`, truncated to `0`), tolerance `0`, empty
state store. -/
def limiterNoop : RateLimiter ℕ :=
  { rate_nanos := 0, tolerance_nanos := 0, client_state := fun _ => none }

/-- Witness for C10 at `R = 2·10^9`, `B = 0`, a three-call run (two keys):
the increment is zero and every decision of the run is `true`. -/
theorem c10_zero_increment_noop_witness :
    rateNanosOf 2000000000 = 0 ∧
      ∀ d ∈ (limiterNoop.run [(0, 0), (0, 0), (5, 1)]).1, d = true :=
  c10_zero_increment_noop 2000000000 0 (by norm_num) limiterNoop rfl
    [(0, 0), (0, 0), (5, 1)] (by simp [List.chain'_cons])

/-! ## C4: the per-key read-then-write is not atomic -/

/-- C4 fails on the code: `is_allowed` performs one `DashMap::get` and, later,
one `DashMap::insert` with no lock held in between, so the schedule in which
two concurrent calls for the same key both complete their `get` before either
`insert` is admissible.  On a fresh `new(1.0, 0.0, clock)` limiter
(capacity `B + 1 = 1`) both interleaved calls at instant `0` are admitted
(`racyPair` returns two `true`s), even though the serialized execution admits
exactly one — the second serialized call is denied.  The read-then-write is
therefore not "as if atomic" and two callers can both consume the single
available admission. -/
theorem c4_nonatomic_read_admits_both :
    (RateLimiter.new ℕ 1 0).map
        (fun rl => ((rl.racyPair 0 0).1, (rl.racyPair 0 0).2.1)) = .ok (true, true) ∧
      (RateLimiter.new ℕ 1 0).map
        (fun rl => (rl.after 0 0).allowed 0 0) = .ok false :=
  ⟨rfl, rfl⟩

/-! ## C8: accessor round-trip -/

/-- The limiter `new(3.0, 5.0, clock)` produces: increment
`(10^9 / 3) as u64 = 333333333` ns, tolerance `5 · 333333333` ns. -/
def limiterR3 : RateLimiter ℕ :=
  { rate_nanos := 333333333, tolerance_nanos := 1666666665, client_state := fun _ => none }

/-- Counterexample to C8 as stated: the claim quantifies over **every**
accepted rate, but for `rate = 3` the stored increment is
`(10^9 / 3) as u64 = 333333333` ns and the accessor returns
`10^9 / 333333333 ≠ 3`: the configuration does **not** round-trip through the
integer nanosecond representation without drift. -/
theorem c8_counterexample :
    (0 : ℚ) < 3 ∧ (0 : ℚ) ≤ 5 ∧
      RateLimiter.new ℕ 3 5 = .ok limiterR3 ∧ limiterR3.rate ≠ 3 :=
  ⟨by norm_num, by norm_num, by rfl, by norm_num [limiterR3, RateLimiter.rate]⟩

/-- C8, amended: the accessors round-trip exactly for the configurations the
integer representation can store without truncation: if `R · n = 10^9` for
some positive integer `n` (the increment `10^9 / R` is a whole number of
nanoseconds) and `B · n` is an integer, then `rate()` returns `R` and
`burst()` returns `B` exactly. -/
theorem c8_accessor_roundtrip {K : Type} (R B : ℚ) (n m : ℕ) (hn : 0 < n)
    (hRn : R * (n : ℚ) = 1000000000) (hBn : B * (n : ℚ) = (m : ℚ))
    (rl : RateLimiter K) (hnew : RateLimiter.new K R B = .ok rl) :
    rl.rate = R ∧ rl.burst = B := by
  obtain ⟨hRpos, hBpos, hrate, htol, -⟩ := RateLimiter.new_ok R B rl hnew
  have hnq : ((n : ℚ)) ≠ 0 := by
    exact_mod_cast Nat.pos_iff_ne_zero.mp hn
  have hdq : ((R.den : ℚ)) ≠ 0 := by
    exact_mod_cast R.den_nz
  have hnumpos : 0 < R.num := Rat.num_pos.mpr hRpos
  have hq : (R.num : ℚ) * n = 1000000000 * (R.den : ℚ) := by
    have h := hRn
    rw [← Rat.num_div_den R] at h
    field_simp at h
    exact h
  have hz : R.num * n = 1000000000 * R.den := by exact_mod_cast hq
  have hrn : rateNanosOf R = n := by
    unfold rateNanosOf
    have htoNat : (R.num.toNat : ℤ) = R.num := Int.toNat_of_nonneg hnumpos.le
    have hz' : (R.num.toNat : ℤ) * (n : ℤ) = 1000000000 * (R.den : ℤ) := by
      rw [htoNat]; exact_mod_cast hz
    have hzn : 1000000000 * R.den = R.num.toNat * n := by exact_mod_cast hz'.symm
    rw [hzn]
    exact Nat.mul_div_cancel_left n (by omega)
  have hBden : ((B.den : ℚ)) ≠ 0 := by
    exact_mod_cast B.den_nz
  have hBnum : 0 ≤ B.num := Rat.num_nonneg.mpr hBpos
  have hqB : (B.num : ℚ) * n = (m : ℚ) * (B.den : ℚ) := by
    have h := hBn
    rw [← Rat.num_div_den B] at h
    field_simp at h
    exact h
  have hzB : B.num * n = (m : ℤ) * B.den := by exact_mod_cast hqB
  have htn : toleranceNanosOf B n = m := by
    unfold toleranceNanosOf
    have htoNatB : (B.num.toNat : ℤ) = B.num := Int.toNat_of_nonneg hBnum
    have hzB' : (B.num.toNat : ℤ) * (n : ℤ) = (m : ℤ) * (B.den : ℤ) := by
      rw [htoNatB]; exact_mod_cast hzB
    have hzn : B.num.toNat * n = m * B.den := by exact_mod_cast hzB'
    rw [hzn]
    exact Nat.mul_div_cancel m B.pos
  constructor
  · rw [RateLimiter.rate, hrate, hrn]
    rw [div_eq_iff hnq]
    exact hRn.symm
  · rw [RateLimiter.burst, hrate, htol, hrn, htn]
    rw [div_eq_iff hnq]
    exact hBn.symm

/-- The limiter `new(10.0, 5.0, clock)` produces: increment `10^8` ns,
tolerance `5·10^8` ns (both conversions exact). -/
def limiterR10 : RateLimiter ℕ :=
  { rate_nanos := 100000000, tolerance_nanos := 500000000, client_state := fun _ => none }

/-- Witness for C8 at `rate = 10, burst = 5` (the source's own accessor
test): both accessors return the constructor arguments exactly. -/
theorem c8_accessor_roundtrip_witness :
    limiterR10.rate = 10 ∧ limiterR10.burst = 5 :=
  c8_accessor_roundtrip 10 5 100000000 500000000 (by norm_num) (by norm_num)
    (by norm_num) limiterR10 rfl
